import Mathlib

/-!
Shallow embedding of the lircbrary backend core (irc_client.py, irc_session.py,
tasks.py) and proofs checking the natural-language specification against it.

Paths are modelled as lists of components, byte strings as Lean `String`s
(the code decodes network text as latin-1, one byte per character), machine
integers as `Int`/`Nat`. Python sets/dicts used by the code are modelled with
lists. Python string methods used by the code (`split`, `strip`, `upper`,
`lower`, `startswith`, `endswith`) are modelled for the ASCII range, which is
the range the configuration values and wire tokens live in.
-/

namespace Lircbrary

/-- ASCII whitespace recognised by Python `str.split()` / `str.strip()`. -/
def isPySpace (c : Char) : Bool :=
  c = ' ' || c = '\t' || c = '\n' || c = '\r' || c = '\x0b' || c = '\x0c'

/-- Worker for `pySplitWs`: split a character list on runs of whitespace. -/
def splitWsAux : List Char → List Char → List String
  | [], acc => if acc.isEmpty then [] else [String.mk acc.reverse]
  | c :: cs, acc =>
    if isPySpace c then
      if acc.isEmpty then splitWsAux cs []
      else String.mk acc.reverse :: splitWsAux cs []
    else splitWsAux cs (c :: acc)

/-- Python `str.split()` with no argument: split on whitespace runs,
dropping empty tokens. -/
def pySplitWs (s : String) : List String :=
  splitWsAux s.toList []

/-- Python `str.strip()`: drop leading and trailing whitespace. -/
def pyStrip (s : String) : String :=
  String.mk (((s.toList.dropWhile isPySpace).reverse.dropWhile isPySpace).reverse)

/-- Python `str.strip('"')`: drop leading and trailing double quotes. -/
def stripQuotes (s : String) : String :=
  String.mk (((s.toList.dropWhile (· = '"')).reverse.dropWhile (· = '"')).reverse)

/-- Python `str.lower()` (ASCII range). -/
def pyLower (s : String) : String :=
  String.mk (s.toList.map Char.toLower)

/-- Python `str.upper()` (ASCII range). -/
def pyUpper (s : String) : String :=
  String.mk (s.toList.map Char.toUpper)

/-- Python `str.startswith(pre)`. -/
def pyStartsWith (s pre : String) : Bool :=
  pre.toList.isPrefixOf s.toList

/-- Python `str.endswith(suf)`. -/
def pyEndsWith (s suf : String) : Bool :=
  suf.toList.reverse.isPrefixOf s.toList.reverse

/-- Worker for `splitCh`. -/
def splitChAux (sep : Char) : List Char → List Char → List String
  | [], acc => [String.mk acc.reverse]
  | c :: cs, acc =>
    if c = sep then String.mk acc.reverse :: splitChAux sep cs []
    else splitChAux sep cs (c :: acc)

/-- Python `str.split(sep)` for a one-character separator, keeping empty
fields (`"a//b".split("/") == ["a", "", "b"]`). -/
def splitCh (sep : Char) (s : String) : List String :=
  splitChAux sep s.toList []

/-- ASCII decimal digit. -/
def isAsciiDigit (c : Char) : Bool :=
  '0' ≤ c && c ≤ '9'

/-- Value of a run of decimal digits, `none` if empty or a non-digit occurs. -/
def decDigits? (cs : List Char) : Option Nat :=
  match cs with
  | [] => none
  | _ =>
    if cs.all isAsciiDigit then
      some (cs.foldl (fun acc c => 10 * acc + (c.toNat - '0'.toNat)) 0)
    else none

/-- Python `int(token)` on a string token: optional surrounding whitespace,
optional sign, then decimal digits; `none` models `ValueError`.
(Underscore digit grouping accepted by CPython is not modelled; no token in
the claims uses it.) -/
def pyInt? (s : String) : Option Int :=
  let cs := ((s.toList.dropWhile isPySpace).reverse.dropWhile isPySpace).reverse
  match cs with
  | '+' :: rest => (decDigits? rest).map Int.ofNat
  | '-' :: rest => (decDigits? rest).map (fun n => -(n : Int))
  | rest => (decDigits? rest).map Int.ofNat

/-- Model of `str(ipaddress.IPv4Address(n))` for `0 ≤ n < 2^32`: network-byte-order
dotted quad. -/
def ipv4String (n : Nat) : String :=
  toString (n / 16777216 % 256) ++ "." ++ toString (n / 65536 % 256) ++ "." ++
    toString (n / 256 % 256) ++ "." ++ toString (n % 256)

/-- Errors raised by `IrcClient._parse_dcc_send` (all are surfaced as
exceptions in the source: `IrcDownloadError` with the given message for the
first two, `ValueError` from `int()`, `AddressValueError` from
`ipaddress.IPv4Address`). -/
inductive DccError where
  | invalidPayload (payload : String)
  | fileTooLarge (size : Int)
  | valueError
  | addressValueError
  deriving DecidableEq, Repr

/-- The message the code attaches to a `DccError` (`str(e)` of the raised
exception; for `ValueError`/`AddressValueError` CPython renders the offending
literal, abbreviated here to a stable non-empty diagnostic). -/
def dccErrMsg : DccError → String
  | .invalidPayload p => "Invalid DCC payload: " ++ p
  | .fileTooLarge s => "File too large: " ++ toString s ++ " bytes"
  | .valueError => "invalid literal for int() with base 10"
  | .addressValueError => "address out of range"

/-- The final size-ceiling check of `_parse_dcc_send`:
`if max_size and size and size > max_size: raise`.  Python truthiness makes
the check inert when the ceiling is `None`/`0` or the size is `None`/`0`. -/
def dccSizeOk (maxSize : Option Int) (size : Option Int) : Bool :=
  match maxSize, size with
  | some m, some s => !(m ≠ 0 && s ≠ 0 && s > m)
  | _, _ => true

/-- Model of `IrcClient._parse_dcc_send` (irc_client.py lines 322-335): tokenize the
CTCP payload on whitespace, require ≥ 5 tokens, strip quotes from the
filename token, decode the numeric IP token to a dotted quad, parse the port
and the optional size, and enforce the configured size ceiling. -/
def parse_dcc_send (maxSize : Option Int) (payload : String) :
    Except DccError (String × String × Int × Option Int) :=
  let parts := pySplitWs payload
  if parts.length < 5 then .error (.invalidPayload payload)
  else
    let filename := stripQuotes (parts.getD 2 "")
    match pyInt? (parts.getD 3 "") with
    | none => .error .valueError
    | some ipRaw =>
      if ipRaw < 0 || ipRaw ≥ 4294967296 then .error .addressValueError
      else
        let host := ipv4String ipRaw.toNat
        match pyInt? (parts.getD 4 "") with
        | none => .error .valueError
        | some port =>
          if 5 < parts.length then
            match pyInt? (parts.getD 5 "") with
            | none => .error .valueError
            | some s =>
              if dccSizeOk maxSize (some s) then .ok (filename, host, port, some s)
              else .error (.fileTooLarge s)
          else .ok (filename, host, port, none)

example : parse_dcc_send none "DCC SEND file.epub 3232235521 6667 1234" =
    .ok ("file.epub", "192.168.0.1", 6667, some 1234) := by rfl

example : parse_dcc_send none "DCC SEND x 0 1" =
    .ok ("x", "0.0.0.0", 1, none) := by rfl

example : parse_dcc_send (some 10) "DCC SEND f 0 1 999" =
    .error (.fileTooLarge 999) := by rfl

example : parse_dcc_send none "DCC SEND f 0" =
    .error (.invalidPayload "DCC SEND f 0") := by rfl

/-! ### Search-line parser

`IrcClient._parse_search_line` (irc_client.py lines 181-192) runs
`re.search(r"(?P<id>\d+).*?(?P<title>[^\|]+)", line)`.  The matcher below
implements exactly that pattern with Python's leftmost, greedy-`\d+`,
lazy-`.*?`, greedy-`[^\|]+` backtracking order.  `.` does not match a
newline; the negated class `[^\|]` matches everything except `'|'`.
(Python's `\d` also covers non-ASCII Unicode decimal digits; the text here is
decoded as latin-1, whose only decimal digits are ASCII.) -/

/-- Lazy `.*?` followed by greedy `[^\|]+`: walk forward, at each position
first try to start the title group (any char except `'|'`, including a
newline), else let `.` consume one character.  The only characters the dot
ever has to consume are `'|'`s (anything else starts the title), so the
dot's no-newline restriction never bites.  Returns the title characters. -/
def gapSearch : List Char → Option (List Char)
  | [] => none
  | c :: rest =>
    if c ≠ '|' then some ((c :: rest).takeWhile (· ≠ '|'))
    else gapSearch rest

/-- Attempt the whole pattern anchored at the head of `cs`: greedy `\d+`
(backtracking to a shorter digit run when the rest cannot match; one step of
backtracking always suffices because a digit placed at the title position
matches `[^\|]`). Returns (id characters, title characters). -/
def matchAt (cs : List Char) : Option (List Char × List Char) :=
  let ds := cs.takeWhile isAsciiDigit
  let rest := cs.drop ds.length
  if ds.isEmpty then none
  else
    match gapSearch rest with
    | some t => some (ds, t)
    | none =>
      match ds.getLast? with
      | some d =>
        if ds.length ≥ 2 then
          some (ds.dropLast, d :: rest.takeWhile (· ≠ '|'))
        else none
      | none => none

/-- Model of `re.search`: try the pattern at each start position, leftmost first. -/
def pySearch : List Char → Option (List Char × List Char)
  | [] => none
  | c :: rest =>
    match matchAt (c :: rest) with
    | some r => some r
    | none => pySearch rest

/-- Model of `schemas.SearchResult`, restricted to the fields the parser and the
search loops populate (`author`/`size_bytes` are always `None` there). -/
structure SearchResult where
  id : String
  title : String
  description : String
  bot : Option String := none
  deriving DecidableEq, Repr

/-- Model of `IrcClient._parse_search_line`: regex-match the line; on a match build a
result with the digit group as id, the stripped title group as title and the
stripped line as description. -/
def parse_search_line (line : String) : Option SearchResult :=
  match pySearch line.toList with
  | none => none
  | some (idCs, titleCs) =>
    some { id := String.mk idCs
           title := pyStrip (String.mk titleCs)
           description := pyStrip line
           bot := none }

example : parse_search_line "12345 Some Title | extra" =
    some { id := "12345", title := "Some Title",
           description := "12345 Some Title | extra" } := by rfl

example : parse_search_line "no id here" = none := by rfl

example : parse_search_line "x1y" =
    some { id := "1", title := "y", description := "x1y" } := by rfl

/-- Model of `IrcClient._parse_results_text` (irc_client.py lines 352-356): parse every
line of the payload text, keeping matches in first-seen order. -/
def parse_results_text (text : String) : List SearchResult :=
  (splitCh (Char.ofNat 10) text).filterMap parse_search_line

/-! ### Binary transfer receive loop

`IrcClient._receive_dcc` (irc_client.py lines 358-387).  The inbound byte
stream is modelled as the list of the chunk sizes `sock.recv(4096)` returns
(each between 1 and 4096); the end of the list is socket EOF.  The optional
acknowledgement failure of `sock.sendall` is injected through `ackFails`
(`true` = the send raises; the code catches and logs it). `total.to_bytes(4)`
raises `OverflowError` for totals ≥ 2^32; that exception is caught by the
same handler, so the ack is simply not sent. -/

/-- Model of `total.to_bytes(4, byteorder="big", signed=False)`: the four big-endian
bytes, or `none` for the `OverflowError` case. -/
def u32be (n : Nat) : Option (List Nat) :=
  if n < 4294967296 then
    some [n / 16777216 % 256, n / 65536 % 256, n / 256 % 256, n % 256]
  else none

/-- Why the receive loop stopped. -/
inductive StopReason where
  | eof
  | declaredSize
  deriving DecidableEq, Repr

/-- Observable outcome of the receive loop: bytes written to the destination
file, the acknowledgement attempted after each chunk (encoding, delivered?),
and the stop reason. -/
structure RecvTrace where
  total : Nat
  acks : List (Option (List Nat) × Bool)
  stop : StopReason
  deriving DecidableEq, Repr

/-- The `while True` body of `_receive_dcc`: write the chunk, attempt the
cumulative ack, then decrement `remaining` and stop once it is ≤ 0. -/
def recv_loop (ackFails : Nat → Bool) :
    List Nat → Option Int → Nat → Nat → RecvTrace
  | [], _, _, total => ⟨total, [], .eof⟩
  | c :: rest, remaining?, idx, total =>
    let total' := total + c
    let enc := u32be total'
    let ack := (enc, enc.isSome && !(ackFails idx))
    match remaining? with
    | some r =>
      if r - (c : Int) ≤ 0 then ⟨total', [ack], .declaredSize⟩
      else
        let t := recv_loop ackFails rest (some (r - (c : Int))) (idx + 1) total'
        ⟨t.total, ack :: t.acks, t.stop⟩
    | none =>
      let t := recv_loop ackFails rest none (idx + 1) total'
      ⟨t.total, ack :: t.acks, t.stop⟩

/-- Model of `IrcClient._receive_dcc` on a chunk stream. -/
def receive_dcc (chunks : List Nat) (size? : Option Int)
    (ackFails : Nat → Bool) : RecvTrace :=
  recv_loop ackFails chunks size? 0 0

/-- The prefix of the chunk stream the loop consumes: everything up to and
including the chunk that drives `remaining` to ≤ 0 (all of it when no size
was declared). Specification-side companion of `recv_loop`. -/
def consumedChunks : List Nat → Option Int → List Nat
  | [], _ => []
  | c :: rest, some r =>
    if r - (c : Int) ≤ 0 then [c] else c :: consumedChunks rest (some (r - (c : Int)))
  | c :: rest, none => c :: consumedChunks rest none

/-- Cumulative byte counts after each consumed chunk. -/
def prefixTotals : List Nat → Nat → List Nat
  | [], _ => []
  | c :: rest, acc => (acc + c) :: prefixTotals rest (acc + c)

example : receive_dcc [4096, 4096, 100] (some 5000) (fun _ => false) =
    ⟨8192, [(u32be 4096, true), (u32be 8192, true)], .declaredSize⟩ := by rfl

example : receive_dcc [10, 20] none (fun _ => false) =
    ⟨30, [(u32be 10, true), (u32be 30, true)], .eof⟩ := by rfl

/-! ### Connection / registration / join retry

`IrcClient._connect_and_join` (irc_client.py lines 113-160).  A single
attempt's network outcome is abstracted to: the welcome never arrives within
10s (which is also how a nickname collision manifests, since the server then
never sends RPL_WELCOME for the rejected nick), the join confirmation never
arrives within 10s, or both arrive (success). -/

/-- Outcome of one connection attempt. -/
inductive AttemptOutcome where
  | welcomeTimeout
  | joinTimeout
  | success
  deriving DecidableEq, Repr

/-- The `IrcSearchError` the loop records for a failed attempt. -/
inductive ConnFailure where
  | welcomeTimeout
  | joinTimeout (channel : String)
  | failedToConnect
  deriving DecidableEq, Repr

/-- Connection-level side effects, for tracking teardown. -/
inductive ConnAct where
  | connect (nick : String)
  | disconnect (reason : String)
  deriving DecidableEq, Repr

/-- Model of `nick = base_nick if attempt == 0 else f"{base_nick}_{attempt}"`. -/
def attemptNick (base : String) : Nat → String
  | 0 => base
  | n + 1 => base ++ "_" ++ toString (n + 1)

/-- The `for attempt in range(3)` loop, `remaining` attempts left. -/
def cajLoop (base channel : String) (outcome : Nat → AttemptOutcome) :
    Nat → Nat → Option ConnFailure → Except ConnFailure String × List ConnAct
  | 0, _, lastErr =>
    (match lastErr with
     | some e => .error e
     | none => .error .failedToConnect, [])
  | remaining + 1, attempt, _lastErr =>
    let nick := attemptNick base attempt
    match outcome attempt with
    | .success => (.ok nick, [.connect nick])
    | .welcomeTimeout =>
      let (r, acts) :=
        cajLoop base channel outcome remaining (attempt + 1) (some .welcomeTimeout)
      (r, .connect nick :: .disconnect "welcome-timeout" :: acts)
    | .joinTimeout =>
      let (r, acts) :=
        cajLoop base channel outcome remaining (attempt + 1) (some (.joinTimeout channel))
      (r, .connect nick :: .disconnect "join-timeout" :: acts)

/-- Model of `IrcClient._connect_and_join`: up to 3 total attempts; on success returns
the nick in use; on exhaustion raises the last recorded error. -/
def connect_and_join (base channel : String) (outcome : Nat → AttemptOutcome) :
    Except ConnFailure String × List ConnAct :=
  cajLoop base channel outcome 3 0 none

example :
    connect_and_join "nick" "#ebooks" (fun n => if n = 0 then .joinTimeout else .success) =
      (.ok "nick_1",
       [.connect "nick", .disconnect "join-timeout", .connect "nick_1"]) := by rfl

example :
    connect_and_join "nick" "#ebooks" (fun _ => .welcomeTimeout) =
      (.error .welcomeTimeout,
       [.connect "nick", .disconnect "welcome-timeout",
        .connect "nick_1", .disconnect "welcome-timeout",
        .connect "nick_2", .disconnect "welcome-timeout"]) := by rfl

/-! ### One-shot search and download event loops

`IrcClient._search_sync` / `IrcClient._download_sync` (irc_client.py lines
198-254 and 260-320).  Inbound IRC traffic after the command is sent is
modelled as the list of `privmsg`/`ctcp` events the reactor delivers during
the bounded window, in order.  Socket-level transfer outcomes are injected
through a parameter: `fetch host port` is the result of `_receive_dcc`
followed by reading back the saved payload text (`Except SockErr String`).
Network side effects are collected in an action trace; `_receive_dcc` and
`_probe` are the only places a socket to the offered endpoint is opened. -/

/-- Socket-level failures `_receive_dcc` can raise.  CPython's socket
exceptions carry non-empty diagnostics (`"timed out"`, `"[Errno …] …"`),
which matters for the session invariant of irc_session.py. -/
inductive SockErr where
  | timedOut
  | connectionRefused
  | connectionReset
  deriving DecidableEq, Repr

/-- Model of `str(e)` of a socket failure. -/
def sockErrMsg : SockErr → String
  | .timedOut => "timed out"
  | .connectionRefused => "[Errno 111] Connection refused"
  | .connectionReset => "[Errno 104] Connection reset by peer"

/-- An inbound IRC event, as the handlers see it: `event.source` (falsy
sources modelled as `none`) and `event.arguments`. -/
structure IrcEvent where
  source : Option String
  arguments : List String
  deriving DecidableEq, Repr

/-- Kind tag used by the loops: `privmsg` events go to `on_privmsg`, `ctcp`
events to `on_ctcp`. -/
inductive EventKind where
  | privmsg
  | ctcp
  deriving DecidableEq, Repr

/-- Model of `event.source.split("!")[0] if event.source else ""`. -/
def senderOf (src : Option String) : String :=
  match src with
  | some s => (splitCh (Char.ofNat 33) s).headD ""
  | none => ""

/-- The payload both `on_ctcp` handlers reconstruct from `event.arguments`:
`f"DCC {args[1]}"` when the first argument is `DCC` and the second starts
with `SEND` (case-insensitively), else the first argument verbatim. -/
def ctcpPayload (args : List String) : Option String :=
  match args with
  | [] => none
  | a0 :: restArgs =>
    if restArgs.length ≥ 1 && pyUpper a0 = "DCC" &&
        pyStartsWith (pyUpper (restArgs.headD "")) "SEND"
    then some ("DCC " ++ restArgs.headD "")
    else some a0

/-- Does the handler treat this ctcp event as a transfer offer
(`payload.upper().startswith("DCC SEND")`)? -/
def isDccSendEvent (args : List String) : Bool :=
  match ctcpPayload args with
  | some p => pyStartsWith (pyUpper p) "DCC SEND"
  | none => false

/-- Model of `if allowed_bots and sender.lower() not in allowed_bots`: the allow-list
check, with Python truthiness (an empty configured list disables it) and
case-insensitive membership. -/
def senderDisallowed (allowedBots : List String) (sender : String) : Bool :=
  !allowedBots.isEmpty && !(allowedBots.map pyLower).contains (pyLower sender)

/-- Network side effects of the loops, for the "no socket opened" claims.
`_receive_dcc` both opens the socket and creates the destination file, so a
missing `openSocket` action also means no file was created. -/
inductive NetAction where
  | probe (host : String) (port : Int)
  | openSocket (host : String) (port : Int)
  deriving DecidableEq, Repr

/-- Mutable state of `_download_sync`'s closure. -/
structure DlState where
  downloadStarted : Bool
  downloadError : Option String
  done : Bool
  deriving DecidableEq, Repr

/-- Model of `_download_sync.on_ctcp` (irc_client.py lines 275-300): reject disallowed
senders with a recorded error, otherwise parse the offer and run the
transfer, recording any exception as the download error. -/
def on_ctcp_download (allowedBots : List String) (maxSize : Option Int)
    (fetch : String → Int → Except SockErr String)
    (st : DlState) (e : IrcEvent) : DlState × List NetAction :=
  match ctcpPayload e.arguments with
  | none => (st, [])
  | some payload =>
    if pyStartsWith (pyUpper payload) "DCC SEND" then
      let sender := senderOf e.source
      if senderDisallowed allowedBots sender then
        ({ st with downloadError := some ("Sender " ++ sender ++ " not allowed")
                   done := true }, [])
      else
        match parse_dcc_send maxSize payload with
        | .error err =>
          ({ st with downloadError := some (dccErrMsg err), done := true }, [])
        | .ok (_, host, port, _) =>
          match fetch host port with
          | .error se =>
            ({ st with downloadError := some (sockErrMsg se), done := true },
             [.openSocket host port])
          | .ok _ =>
            ({ st with downloadStarted := true, done := true },
             [.openSocket host port])
    else (st, [])

/-- The `while not done` pump of `_download_sync`, folding the delivered
events (the `on_privmsg` handler there only logs, so only ctcp events can
change state). -/
def download_loop (allowedBots : List String) (maxSize : Option Int)
    (fetch : String → Int → Except SockErr String) :
    List IrcEvent → DlState → DlState × List NetAction
  | [], st => (st, [])
  | e :: rest, st =>
    if st.done then (st, [])
    else
      let (st', acts) := on_ctcp_download allowedBots maxSize fetch st e
      let (st'', acts') := download_loop allowedBots maxSize fetch rest st'
      (st'', acts ++ acts')

/-- Model of `IrcClient._download_sync` after the command is sent: pump events, then
raise the recorded error, or raise "No DCC SEND received" if nothing was
downloaded, else return the destination path (modelled as `Unit`). -/
def download_sync (allowedBots : List String) (maxSize : Option Int)
    (fetch : String → Int → Except SockErr String)
    (events : List IrcEvent) : Except String Unit × List NetAction :=
  let (st, acts) := download_loop allowedBots maxSize fetch events ⟨false, none, false⟩
  (match st.downloadError with
   | some err => .error err
   | none => if !st.downloadStarted then .error "No DCC SEND received" else .ok (),
   acts)

/-- Mutable state of `_search_sync`'s closure: `results` collected from
inline reply lines, `parsed_results` from a transferred payload. -/
structure SearchState where
  results : List SearchResult
  parsedResults : List SearchResult
  deriving DecidableEq, Repr

/-- Model of `_search_sync.on_privmsg` (irc_client.py lines 209-215): parse the line;
on a match set the bot field from the event source and append. -/
def on_privmsg_search (st : SearchState) (src : Option String) (line : String) :
    SearchState :=
  match parse_search_line line with
  | none => st
  | some parsed =>
    let bot := match src with
      | some s => some ((splitCh (Char.ofNat 33) s).headD "")
      | none => none
    { st with results := st.results ++ [{ parsed with bot := bot }] }

/-- Model of `_search_sync.on_ctcp` (irc_client.py lines 217-243): silently skip
disallowed senders; for accepted offers probe, transfer, and parse the saved
payload, with every exception caught and logged (never failing the
search). The zip-vs-raw payload classification of
`_parse_search_results_file` is abstracted to the text it yields. -/
def on_ctcp_search (allowedBots : List String) (maxSize : Option Int)
    (fetch : String → Int → Except SockErr String)
    (st : SearchState) (e : IrcEvent) : SearchState × List NetAction :=
  match ctcpPayload e.arguments with
  | none => (st, [])
  | some payload =>
    if pyStartsWith (pyUpper payload) "DCC SEND" then
      let sender := senderOf e.source
      if senderDisallowed allowedBots sender then (st, [])
      else
        match parse_dcc_send maxSize payload with
        | .error _ => (st, [])
        | .ok (_, host, port, _) =>
          match fetch host port with
          | .error _ => (st, [.probe host port, .openSocket host port])
          | .ok text =>
            ({ st with parsedResults := st.parsedResults ++ parse_results_text text },
             [.probe host port, .openSocket host port])
    else (st, [])

/-- The bounded event pump of `_search_sync`: every delivered event is
handled (the loop runs for the whole window; nothing sets a done flag). -/
def search_loop (allowedBots : List String) (maxSize : Option Int)
    (fetch : String → Int → Except SockErr String) :
    List (EventKind × IrcEvent) → SearchState → SearchState × List NetAction
  | [], st => (st, [])
  | (k, e) :: rest, st =>
    let (st', acts) :=
      match k with
      | .privmsg => (on_privmsg_search st e.source (e.arguments.headD ""), [])
      | .ctcp => on_ctcp_search allowedBots maxSize fetch st e
    let (st'', acts') := search_loop allowedBots maxSize fetch rest st'
    (st'', acts ++ acts')

/-- Model of `IrcClient._search_sync` after the command is sent: pump the window's
events, disconnect, and return `parsed_results or results`.  Note the
function always returns a result list: no offer, sender or transfer outcome
makes it raise. -/
def search_sync (allowedBots : List String) (maxSize : Option Int)
    (fetch : String → Int → Except SockErr String)
    (events : List (EventKind × IrcEvent)) : List SearchResult × List NetAction :=
  let (st, acts) := search_loop allowedBots maxSize fetch events ⟨[], []⟩
  (if st.parsedResults.isEmpty then st.results else st.parsedResults, acts)

/-! ### Persistent session

`IrcSession` (irc_session.py).  One queued request's life is modelled: the
transient handlers wired by `_start_search_request` process the delivered
events; if none of them sets the completion signal, the session loop's
timeout check fires (`_run_loop` lines 58-66) and records "Search timeout".
`req["results"]` is aliased at wiring time (line 140) to the inline `results`
list (both holders are empty then, so `parsed_results or results` is
`results`); later payload parses into `parsed_results` are therefore not
visible through the request. -/

/-- The request dict fields observed by `IrcSession.search`. -/
structure ReqState where
  error : Option String
  done : Bool
  resultsInline : List SearchResult
  parsedResults : List SearchResult
  deriving DecidableEq, Repr

/-- Model of `_start_search_request.on_ctcp` (irc_session.py lines 96-127): a
disallowed sender or any transfer/parse exception records an error and sets
the completion signal; a successful payload transfer only extends
`parsed_results` and sets nothing. -/
def on_ctcp_session (allowedBots : List String) (maxSize : Option Int)
    (fetch : String → Int → Except SockErr String)
    (st : ReqState) (e : IrcEvent) : ReqState :=
  match ctcpPayload e.arguments with
  | none => st
  | some payload =>
    if pyStartsWith (pyUpper payload) "DCC SEND" then
      let sender := senderOf e.source
      if senderDisallowed allowedBots sender then
        { st with error := some ("Sender " ++ sender ++ " not allowed"), done := true }
      else
        match parse_dcc_send maxSize payload with
        | .error err => { st with error := some (dccErrMsg err), done := true }
        | .ok (_, host, port, _) =>
          match fetch host port with
          | .error se => { st with error := some (sockErrMsg se), done := true }
          | .ok text =>
            { st with parsedResults := st.parsedResults ++ parse_results_text text }
    else st

/-- Model of `_start_search_request.on_privmsg` (irc_session.py lines 89-94), writing
through the `req["results"]` alias. -/
def on_privmsg_session (st : ReqState) (src : Option String) (line : String) :
    ReqState :=
  match parse_search_line line with
  | none => st
  | some parsed =>
    let bot := match src with
      | some s => some ((splitCh (Char.ofNat 33) s).headD "")
      | none => none
    { st with resultsInline := st.resultsInline ++ [{ parsed with bot := bot }] }

/-- The handlers stay wired until the session-side timeout tears them down,
so every delivered event is processed. -/
def session_events (allowedBots : List String) (maxSize : Option Int)
    (fetch : String → Int → Except SockErr String) :
    List (EventKind × IrcEvent) → ReqState → ReqState
  | [], st => st
  | (k, e) :: rest, st =>
    let st' :=
      match k with
      | .privmsg => on_privmsg_session st e.source (e.arguments.headD "")
      | .ctcp => on_ctcp_session allowedBots maxSize fetch st e
    session_events allowedBots maxSize fetch rest st'

/-- One request under `IrcSession._run_loop`: process the window's events;
if nothing completed the request, the loop's timeout check records
"Search timeout" and sets the signal. -/
def session_run (allowedBots : List String) (maxSize : Option Int)
    (fetch : String → Int → Except SockErr String)
    (events : List (EventKind × IrcEvent)) : ReqState :=
  let st := session_events allowedBots maxSize fetch events ⟨none, false, [], []⟩
  if st.done then st else { st with error := some "Search timeout", done := true }

/-- Model of `IrcSession.search` (irc_session.py lines 150-160) after submission:
raise on its own wait timeout; once the signal fires, raise a truthy recorded
error, else return the aliased result list. -/
def session_search (st : ReqState) (waitTimedOut : Bool) :
    Except String (List SearchResult) :=
  if waitTimedOut then .error "Search timed out"
  else
    match st.error with
    | some e => if e ≠ "" then .error e else .ok st.resultsInline
    | none => .ok st.resultsInline

/-! ### Download pipeline

`tasks.download_and_process` and `tasks._safe_extract` (tasks.py).  The
downloaded artifact is abstracted to what the post-download checks inspect:
its size, whether `zipfile.is_zipfile` holds, its member name list, and the
content of a `mimetype` member. -/

/-- The downloaded artifact, as the pipeline's checks see it. -/
structure Artifact where
  size : Nat
  isZip : Bool
  entries : List String
  mimetypeContent : Option String
  deriving DecidableEq, Repr

/-- Exceptions `download_and_process` can raise (the first two are
`IrcDownloadError`s; `unboundLocal` is the `UnboundLocalError` CPython raises
when a local variable is read before its first assignment). -/
inductive PipelineError where
  | downloadFailed (msg : String)
  | emptyDownload
  | unboundLocal (name : String)
  deriving DecidableEq, Repr

/-- Lines 64-70: strip a leading `"!botname "` trigger prefix
(`result_id.split(" ", 1)`, keeping the stripped remainder when a space
exists). -/
def cleanName (result_id : String) : String :=
  if pyStartsWith result_id "!" then
    match result_id.toList.findIdx? (· = ' ') with
    | none => result_id
    | some i => pyStrip (String.mk (result_id.toList.drop (i + 1)))
  else result_id

/-- Lines 72-85: the ebook-extension classification of the cleaned name. -/
def classifyExt (clean : String) : Option String :=
  let l := pyLower clean
  if pyEndsWith l ".epub" then some ".epub"
  else if pyEndsWith l ".mobi" then some ".mobi"
  else if pyEndsWith l ".azw3" then some ".azw3"
  else if pyEndsWith l ".pdf" then some ".pdf"
  else none

/-- Lines 107-120: `zipfile.is_zipfile` and a `mimetype` member whose
stripped content is the epub MIME string. -/
def isActualEpub (art : Artifact) : Bool :=
  art.isZip && art.entries.contains "mimetype" &&
    (match art.mimetypeContent with
     | some c => pyStrip c = "application/epub+zip"
     | none => false)

/-- Model of `pathlib.PurePath.suffix`: the last dot-suffix of a name, empty when the
dot is leading or trailing. -/
def pathSuffix (s : String) : String :=
  let cs := s.toList
  let revTail := cs.reverse.takeWhile (· ≠ '.')
  if cs.contains '.' then
    let i := cs.length - 1 - revTail.length
    if 0 < i && i < cs.length - 1 then String.mk ('.' :: revTail.reverse) else ""
  else ""

/-- Model of `pathlib.PurePath.with_suffix`: replace the suffix (append when none). -/
def withSuffix (s : String) (newSuf : String) : String :=
  String.mk (s.toList.take (s.length - (pathSuffix s).length)) ++ newSuf

/-- Line 87: the staging filename
`f"{clean_name if is_ebook else result_id}-{job_id}{extension}"`. -/
def destFileName (result_id jobId : String) : String :=
  let clean := cleanName result_id
  (if (classifyExt clean).isSome then clean else result_id) ++ "-" ++ jobId ++
    ((classifyExt clean).getD ".zip")

/-- Model of `tasks.download_and_process` (tasks.py lines 39-161), with the download
itself abstracted to its outcome `dl`.  On the generic-archive branch the
source reads `archive_path` in the log call on line 138 before the variable's
first assignment on line 139, so that branch unconditionally raises
`UnboundLocalError` — the extraction and selection code below it (lines
139-161) is unreachable. -/
def download_and_process (result_id jobId : String) (dl : Except String Artifact) :
    Except PipelineError String :=
  let clean := cleanName result_id
  let isEbook := (classifyExt clean).isSome
  match dl with
  | .error m => .error (.downloadFailed m)
  | .ok art =>
    if art.size = 0 then .error .emptyDownload
    else
      let name := destFileName result_id jobId
      if isEbook || isActualEpub art then
        .ok (if isActualEpub art && pyLower (pathSuffix name) ≠ ".epub"
             then withSuffix name ".epub" else name)
      else .error (.unboundLocal "archive_path")

example :
    download_and_process "Author - Title.epub" "j1"
      (.ok ⟨100, false, [], none⟩) = .ok "Author - Title.epub-j1.epub" := by rfl

example :
    download_and_process "12345" "j1"
      (.ok ⟨2048, true, ["doc/a.bin", "doc/b.pdf", "c.dat"], none⟩) =
      .error (.unboundLocal "archive_path") := by rfl

/-! ### Safe extraction

`tasks._safe_extract` (tasks.py lines 25-36).  The pipeline always stages a
non-ebook artifact under a name ending in `.zip` (line 61/87), so
`shutil.unpack_archive` dispatches on that extension to its zipfile handler
`shutil._unpack_zipfile`.  That handler skips — without extracting — every
member whose name starts with `'/'` or contains `".."` anywhere
("don't extract absolute paths or ones with .. in them"), and materializes
the rest at `os.path.join(extract_dir, *name.split('/'))`, so every
extracted path lands lexically inside the target directory; symlink members
are written as regular files, so the fresh job directory contains no
symlinks and `Path.resolve` on it is lexical normalization.  Paths are
component lists. -/

/-- Is `".."` a substring of the name? -/
def hasDotDot : List Char → Bool
  | [] => false
  | [_] => false
  | c1 :: c2 :: rest => (c1 = '.' && c2 = '.') || hasDotDot (c2 :: rest)

/-- Model of `shutil._unpack_zipfile`'s traversal filter:
`if name.startswith('/') or '..' in name: continue`. -/
def entrySkipped (name : String) : Bool :=
  pyStartsWith name "/" || hasDotDot name.toList

/-- Where a non-skipped member lands:
`os.path.join(extract_dir, *name.split('/'))` (empty components vanish in
the join, `'.'` components vanish when the OS resolves the created path). -/
def extractedPath (jobDir : List String) (name : String) : List String :=
  jobDir ++ (splitCh (Char.ofNat 47) name).filter (fun x => x ≠ "" && x ≠ ".")

/-- The set of paths `shutil.unpack_archive` materializes under the job
directory for the given member names. -/
def zip_extract (jobDir : List String) (entries : List String) :
    List (List String) :=
  (entries.filter
      (fun e => !entrySkipped e &&
        !((splitCh (Char.ofNat 47) e).filter (fun x => x ≠ "" && x ≠ ".")).isEmpty)).map
    (extractedPath jobDir)

/-- One step of lexical path normalization. -/
def normStep (acc : List String) (c : String) : List String :=
  if c = "." then acc else if c = ".." then acc.dropLast else acc ++ [c]

/-- Lexical normalization: what `Path.resolve` computes on a symlink-free
tree (`..` pops, `.` vanishes). -/
def normalizePath (p : List String) : List String :=
  p.foldl normStep []

/-- The `ValueError` of `_safe_extract` (spec name: `ExtractionError`). -/
inductive ExtractError where
  | invalidEntry (child : List String)
  deriving DecidableEq, Repr

/-- The post-extraction guard loop (tasks.py lines 33-35): for every child
found under the job directory, require
`child.resolve().is_relative_to(job_dir.resolve())`. -/
def extract_check (jobDirResolved : List String)
    (resolve : List String → List String) :
    List (List String) → Except ExtractError Unit
  | [] => .ok ()
  | c :: rest =>
    if jobDirResolved.isPrefixOf (resolve c) then
      extract_check jobDirResolved resolve rest
    else .error (.invalidEntry c)

/-- Model of `tasks._safe_extract` on a zip archive: extract (sanitized), then run the
guard over the extracted children; return the extracted set on success (the
source returns the job directory these children live under). -/
def safe_extract (jobDir : List String) (entries : List String) :
    Except ExtractError (List (List String)) :=
  let children := zip_extract jobDir entries
  match extract_check (normalizePath jobDir) normalizePath children with
  | .error e => .error e
  | .ok _ => .ok children

/-- Does an archive member name, taken at face value (empty and `'.'`
components ignored but `'..'` kept), resolve outside the job directory? This
is the claim's notion of a path-traversal entry. -/
def entryEscapes (jobDir : List String) (entry : String) : Bool :=
  !(normalizePath jobDir).isPrefixOf
    (normalizePath (jobDir ++ (splitCh (Char.ofNat 47) entry).filter (fun x => x ≠ "" && x ≠ ".")))

example : entryEscapes ["data", "temp", "job1"] "../../evil.pdf" = true := by rfl

example : safe_extract ["data", "temp", "job1"] ["../../evil.pdf", "good/inner.pdf"] =
    .ok [["data", "temp", "job1", "good", "inner.pdf"]] := by rfl

end Lircbrary

namespace Lircbrary

example : pySearch "12345".toList = some ("1234".toList, "5".toList) := by rfl
example : pySearch "5".toList = none := by rfl
example : pySearch "12|".toList = some ("1".toList, "2".toList) := by rfl
example : pySearch "1|2".toList = some ("1".toList, "2".toList) := by rfl
example : pySearch "12|||".toList = some ("1".toList, "2".toList) := by rfl
example : pySearch "57".toList = some ("5".toList, "7".toList) := by rfl
example : pySearch "ab 42 cd|e".toList = some ("42".toList, " cd".toList) := by rfl
example : pySearch "0".toList = none := by rfl
example : pySearch "  77  ".toList = some ("77".toList, "  ".toList) := by rfl

end Lircbrary

namespace Lircbrary

/-! ## Claim theorems -/

/-- C2: the claim describes the generic-archive branch completing
successfully (extract, select the `.pdf`, move it into the library).  The
code cannot: `tasks.py` line 138 formats `archive_path` into a log message
one line before the variable's first assignment, so every download that
reaches the generic-archive branch raises `UnboundLocalError` — here a
download for the plain identifier `"12345"` whose downloaded artifact is a
valid 2048-byte zip holding one `.pdf` and two non-ebook files. -/
theorem c2_generic_zip_branch_crashes :
    download_and_process "12345" "abc123"
        (.ok ⟨2048, true, ["doc/a.bin", "doc/b.pdf", "c.dat"], none⟩) =
      .error (.unboundLocal "archive_path") := by rfl

/-- Helper: a line whose characters contain no decimal digit has no match. -/
theorem pySearch_no_digit (cs : List Char)
    (h : ∀ c ∈ cs, isAsciiDigit c = false) : pySearch cs = none := by
  induction cs with
  | nil => rfl
  | cons c rest ih =>
    have hc : isAsciiDigit c = false := h c (List.mem_cons_self c rest)
    have hm : matchAt (c :: rest) = none := by
      simp [matchAt, List.takeWhile_cons, hc]
    simp [pySearch, hm, ih (fun x hx => h x (List.mem_cons_of_mem _ hx))]

/-- C6 counterexample: on the claim's own example line the code strips the
title, producing `"Some Title"`, not the claimed `"Some Title "` with a
trailing space (`_parse_search_line` applies `.strip()` to the title group
and to the description). -/
theorem c6_counterexample :
    (parse_search_line "12345 Some Title | extra").map (fun r => r.title) =
        some "Some Title" ∧
    (parse_search_line "12345 Some Title | extra").map (fun r => r.title) ≠
        some "Some Title " := by
  constructor
  · rfl
  · intro h
    have : some "Some Title" = some "Some Title " := by
      rw [← h]; rfl
    simp at this

/-- C6 as amended: the parser matches the first run of digits anywhere in
the line (not only a leading run) as the id — backtracking one digit when
nothing but `'|'`s follow the run — and takes as title the first maximal run
of non-`'|'` characters after the id, stripped of surrounding whitespace;
the description is the whole line stripped (not verbatim).  A line with no
digits at all yields no result; `"12345 Some Title | extra"` yields id
`"12345"` and title `"Some Title"`; `"no id here"` yields no result; a line
with a non-leading digit such as `"x1y"` still yields a result. -/
theorem c6_amended :
    (∀ line : String, (∀ c ∈ line.toList, isAsciiDigit c = false) →
        parse_search_line line = none) ∧
    parse_search_line "12345 Some Title | extra" =
      some { id := "12345", title := "Some Title",
             description := "12345 Some Title | extra", bot := none } ∧
    parse_search_line "no id here" = none ∧
    parse_search_line "x1y" =
      some { id := "1", title := "y", description := "x1y", bot := none } := by
  refine ⟨?_, rfl, rfl, rfl⟩
  intro line h
  unfold parse_search_line
  rw [pySearch_no_digit line.toList h]

/-- C6 amended, witnessed at the concrete line `"no digits at all"`. -/
theorem c6_amended_witness :
    parse_search_line "no digits at all" = none :=
  c6_amended.1 "no digits at all" (by decide)

/-- C7 counterexample: an attempt whose join confirmation times out is not a
terminal failure — `_connect_and_join` line 155 `continue`s to the next
attempt of the same 3-attempt loop.  With a join timeout on attempt 0 and
success on attempt 1, the call returns successfully with the suffixed nick
`"nick_1"` instead of raising `ConnectionError` (and the timed-out attempt's
connection is torn down with reason `"join-timeout"` before the retry). -/
theorem c7_counterexample :
    connect_and_join "nick" "#ebooks"
        (fun n => if n = 0 then .joinTimeout else .success) =
      (.ok "nick_1",
       [.connect "nick", .disconnect "join-timeout", .connect "nick_1"]) := by rfl

/-- The `IrcSearchError` recorded when an attempt fails. -/
def attemptFailure (channel : String) : AttemptOutcome → ConnFailure
  | .welcomeTimeout => .welcomeTimeout
  | .joinTimeout => .joinTimeout channel
  | .success => .failedToConnect

/-- C7 as amended: both welcome timeouts (the form a nickname collision
takes, since the server withholds the welcome for a rejected nick) and
channel-join timeouts are retried inside the same loop of up to 3 total
attempts, with the nick suffixed `_1`, `_2` on the retries; only after all 3
attempts fail does the call raise, with the last attempt's recorded error;
an attempt that succeeds after earlier failed attempts returns the suffixed
nick of the successful attempt. -/
theorem c7_amended :
    (∀ base channel : String, ∀ outcome : Nat → AttemptOutcome,
      (∀ n, n < 3 → outcome n ≠ .success) →
      (connect_and_join base channel outcome).1 =
        .error (attemptFailure channel (outcome 2))) ∧
    (∀ base channel : String, ∀ outcome : Nat → AttemptOutcome, ∀ k, k < 3 →
      (∀ j, j < k → outcome j ≠ .success) → outcome k = .success →
      (connect_and_join base channel outcome).1 = .ok (attemptNick base k)) := by
  constructor
  · intro base channel outcome h
    have h0 := h 0 (by norm_num)
    have h1 := h 1 (by norm_num)
    have h2 := h 2 (by norm_num)
    cases hc0 : outcome 0 <;> cases hc1 : outcome 1 <;> cases hc2 : outcome 2 <;>
      simp_all [connect_and_join, cajLoop, attemptFailure]
  · intro base channel outcome k hk hprev hsucc
    interval_cases k
    · simp [connect_and_join, cajLoop, hsucc]
    · have h0 := hprev 0 (by norm_num)
      cases hc0 : outcome 0 <;>
        simp_all [connect_and_join, cajLoop]
    · have h0 := hprev 0 (by norm_num)
      have h1 := hprev 1 (by norm_num)
      cases hc0 : outcome 0 <;> cases hc1 : outcome 1 <;>
        simp_all [connect_and_join, cajLoop]

/-- C7 amended, witnessed: three welcome timeouts exhaust the retries and
raise, and a collision-style welcome timeout on the first attempt followed
by success on the second returns the suffixed nick. -/
theorem c7_amended_witness :
    (connect_and_join "nick" "#ebooks" (fun _ => .welcomeTimeout)).1 =
        .error .welcomeTimeout ∧
    (connect_and_join "nick" "#ebooks"
        (fun n => if n = 0 then .welcomeTimeout else .success)).1 = .ok "nick_1" := by
  constructor
  · exact c7_amended.1 "nick" "#ebooks" (fun _ => .welcomeTimeout)
      (fun n _ => by simp)
  · exact c7_amended.2 "nick" "#ebooks"
      (fun n => if n = 0 then .welcomeTimeout else .success) 1 (by norm_num)
      (fun j hj => by interval_cases j; simp) (by simp)

end Lircbrary

namespace Lircbrary

/-- C1 counterexample: an archive containing the traversal entry
`"../../evil.pdf"` — whose face-value resolved location escapes the job
directory — does not fail extraction: `shutil.unpack_archive`'s zip handler
silently skips the entry, the remaining member is extracted inside the job
directory, the post-extraction guard finds nothing outside, and
`_safe_extract` returns normally (so the pipeline would go on to select a
file, not raise `ExtractionError`). -/
theorem c1_counterexample :
    entryEscapes ["data", "temp", "job1"] "../../evil.pdf" = true ∧
    safe_extract ["data", "temp", "job1"] ["../../evil.pdf", "good/inner.pdf"] =
      .ok [["data", "temp", "job1", "good", "inner.pdf"]] :=
  ⟨rfl, rfl⟩

/-- Helper: a component list free of `"."`/`".."` appends lexically. -/
theorem normalize_append_plain (s : List String) :
    ∀ acc, (∀ x ∈ s, x ≠ "." ∧ x ≠ "..") →
      s.foldl normStep acc = acc ++ s := by
  induction s with
  | nil => intro acc _; simp
  | cons c rest ih =>
    intro acc h
    have hc := h c (List.mem_cons_self c rest)
    have hrest : ∀ x ∈ rest, x ≠ "." ∧ x ≠ ".." :=
      fun x hx => h x (List.mem_cons_of_mem _ hx)
    simp only [List.foldl_cons, normStep, if_neg hc.1, if_neg hc.2]
    rw [ih (acc ++ [c]) hrest]
    simp

/-- Helper: every token `splitChAux` produces is an infix of the separator
run it was cut from. -/
theorem splitChAux_infix (sep : Char) :
    ∀ cs acc x, x ∈ splitChAux sep cs acc → x.toList <:+: (acc.reverse ++ cs) := by
  intro cs
  induction cs with
  | nil =>
    intro acc x hx
    simp only [splitChAux, List.mem_singleton] at hx
    subst hx
    simp
  | cons c rest ih =>
    intro acc x hx
    simp only [splitChAux] at hx
    by_cases hc : c = sep
    · rw [if_pos hc] at hx
      rcases List.mem_cons.mp hx with h1 | h2
      · subst h1
        exact ⟨[], c :: rest, by simp⟩
      · have := ih [] x h2
        simp only [List.reverse_nil, List.nil_append] at this
        exact this.trans ⟨acc.reverse ++ [c], [], by simp⟩
    · rw [if_neg hc] at hx
      have := ih (c :: acc) x hx
      simpa using this

/-- Helper: a `".."` infix forces `hasDotDot`. -/
theorem hasDotDot_of_infix (cs : List Char)
    (h : ['.', '.'] <:+: cs) : hasDotDot cs = true := by
  rcases h with ⟨s, t, hst⟩
  subst hst
  induction s with
  | nil => simp [hasDotDot]
  | cons a s' ih =>
    have hmono : ∀ (b : Char) (l : List Char), hasDotDot l = true →
        hasDotDot (b :: l) = true := by
      intro b l hl
      match l with
      | [] => simp [hasDotDot] at hl
      | c2 :: rest => simp [hasDotDot, hl]
    exact hmono a _ ih

/-- Helper: member names that survive the traversal filter have no `".."`
component. -/
theorem splitCh_no_dotdot (e : String) (h : entrySkipped e = false) :
    ∀ x ∈ splitCh (Char.ofNat 47) e, x ≠ ".." := by
  intro x hx hcontra
  subst hcontra
  have hinf : ['.', '.'] <:+: e.toList := by
    have := splitChAux_infix (Char.ofNat 47) e.toList [] ".." hx
    simpa using this
  have hdd : hasDotDot e.toList = true := hasDotDot_of_infix e.toList hinf
  have h2 : hasDotDot e.toList = false := by
    simp only [entrySkipped, Bool.or_eq_false_iff] at h
    exact h.2
  rw [hdd] at h2
  simp at h2

/-- Helper: the guard loop errors as soon as some child resolves outside. -/
theorem extract_check_error (jdR : List String)
    (resolve : List String → List String) :
    ∀ children : List (List String),
      (∃ c ∈ children, jdR.isPrefixOf (resolve c) = false) →
      ∃ c, extract_check jdR resolve children = .error (.invalidEntry c) := by
  intro children
  induction children with
  | nil => rintro ⟨c, hc, _⟩; simp at hc
  | cons c rest ih =>
    rintro ⟨w, hw, hbad⟩
    cases hpc : jdR.isPrefixOf (resolve c) with
    | false => exact ⟨c, by simp [extract_check, hpc]⟩
    | true =>
      rcases List.mem_cons.mp hw with h1 | h2
      · subst h1; simp [hpc] at hbad
      · rcases ih ⟨w, h2, hbad⟩ with ⟨c', hc'⟩
        exact ⟨c', by simp [extract_check, hpc, hc']⟩

/-- Helper: everything the zip handler extracts keeps the job directory as a
lexical prefix, before and after normalization. -/
theorem zip_extract_inside (jobDir : List String) (entries : List String) :
    ∀ p ∈ zip_extract jobDir entries,
      jobDir.isPrefixOf p = true ∧
      (normalizePath jobDir).isPrefixOf (normalizePath p) = true := by
  intro p hp
  simp only [zip_extract, List.mem_map, List.mem_filter] at hp
  rcases hp with ⟨e, ⟨_, hkeep⟩, rfl⟩
  have hskip : entrySkipped e = false := by
    simp only [Bool.and_eq_true] at hkeep
    simpa using hkeep.1
  constructor
  · simp [extractedPath, List.isPrefixOf_iff_prefix]
  · have hplain : ∀ x ∈ (splitCh (Char.ofNat 47) e).filter
        (fun x => x ≠ "" && x ≠ "."), x ≠ "." ∧ x ≠ ".." := by
      intro x hx
      have hmem := List.mem_filter.mp hx
      have h2 := hmem.2
      simp only [Bool.and_eq_true] at h2
      refine ⟨by simpa using h2.2, ?_⟩
      exact splitCh_no_dotdot e hskip x hmem.1
    have : normalizePath (extractedPath jobDir e) =
        normalizePath jobDir ++ (splitCh (Char.ofNat 47) e).filter
          (fun x => x ≠ "" && x ≠ ".") := by
      simp only [extractedPath, normalizePath, List.foldl_append]
      exact normalize_append_plain _ _ hplain
    rw [this]
    simp [List.isPrefixOf_iff_prefix]

/-- Helper: the guard loop passes a list of children that all resolve under
the job directory. -/
theorem extract_check_ok (jdR : List String)
    (resolve : List String → List String) :
    ∀ children : List (List String),
      (∀ c ∈ children, jdR.isPrefixOf (resolve c) = true) →
      extract_check jdR resolve children = .ok () := by
  intro children
  induction children with
  | nil => intro _; rfl
  | cons c rest ih =>
    intro h
    have hc := h c (List.mem_cons_self c rest)
    simp [extract_check, hc, ih (fun x hx => h x (List.mem_cons_of_mem _ hx))]

/-- C1 as amended: the zip extraction the pipeline uses skips every member
whose name is absolute or contains `".."`, and places the remaining members
inside the job directory, so `_safe_extract` never raises on a traversal
archive — it succeeds with the traversal entries simply absent (the guard
loop, which would raise the spec's `ExtractionError` before any file is
selected, fires only when an extracted child's resolved location leaves the
job directory, and the zip handler can never produce such a child). -/
theorem c1_amended :
    (∀ jobDir entries, safe_extract jobDir entries =
        .ok (zip_extract jobDir entries)) ∧
    (∀ jobDir entries, ∀ p ∈ zip_extract jobDir entries,
        jobDir.isPrefixOf p = true) ∧
    (∀ jdR resolve, ∀ children : List (List String),
        (∃ c ∈ children, jdR.isPrefixOf (resolve c) = false) →
        ∃ c, extract_check jdR resolve children = .error (.invalidEntry c)) := by
  refine ⟨?_, ?_, extract_check_error⟩
  · intro jobDir entries
    have hok : extract_check (normalizePath jobDir) normalizePath
        (zip_extract jobDir entries) = .ok () :=
      extract_check_ok _ _ _
        (fun c hc => (zip_extract_inside jobDir entries c hc).2)
    simp [safe_extract, hok]
  · intro jobDir entries p hp
    exact (zip_extract_inside jobDir entries p hp).1

/-- C1 amended, witnessed on a concrete traversal archive and a concrete
escaping child list. -/
theorem c1_amended_witness :
    safe_extract ["t"] ["../x.pdf", "a/b.pdf"] = .ok [["t", "a", "b.pdf"]] ∧
    (∃ c, extract_check ["t"] (fun p => p) [["u", "z"]] =
        .error (.invalidEntry c)) :=
  ⟨c1_amended.1 ["t"] ["../x.pdf", "a/b.pdf"],
   c1_amended.2.2 ["t"] (fun p => p) [["u", "z"]]
     ⟨["u", "z"], List.mem_singleton.mpr rfl, rfl⟩⟩

end Lircbrary

namespace Lircbrary

/-- C3: the offer codec's contract.  Any payload with fewer than 5
whitespace tokens fails with the `ProtocolError` (`"Invalid DCC payload"`);
with ≥ 5 tokens whose ip/port/size tokens decode as the claim presupposes
(the ip a 32-bit unsigned integer, the port decimal, any size token decimal
and within the ceiling — the over-ceiling case is claim C5's), the codec
returns the quote-stripped filename token, the dotted-quad decoding of the
ip, and the port; `0` decodes to `0.0.0.0` and `3232235521` to
`192.168.0.1`.  The model is a pure function of the payload — the source has
no side effects in `_parse_dcc_send`. -/
theorem c3_parse_dcc_send_contract :
    (∀ maxSize payload, (pySplitWs payload).length < 5 →
        parse_dcc_send maxSize payload = .error (.invalidPayload payload)) ∧
    (∀ maxSize payload ip port sz,
        5 ≤ (pySplitWs payload).length →
        pyInt? ((pySplitWs payload).getD 3 "") = some ip →
        0 ≤ ip → ip < 4294967296 →
        pyInt? ((pySplitWs payload).getD 4 "") = some port →
        ((pySplitWs payload).length = 5 ∧ sz = none ∨
          5 < (pySplitWs payload).length ∧
            pyInt? ((pySplitWs payload).getD 5 "") = sz ∧ (∃ s, sz = some s) ∧
            dccSizeOk maxSize sz = true) →
        parse_dcc_send maxSize payload =
          .ok (stripQuotes ((pySplitWs payload).getD 2 ""), ipv4String ip.toNat,
               port, sz)) ∧
    ipv4String 0 = "0.0.0.0" ∧
    ipv4String 3232235521 = "192.168.0.1" := by
  refine ⟨?_, ?_, rfl, rfl⟩
  · intro ms payload h
    simp only [parse_dcc_send]
    rw [if_pos h]
  · intro ms payload ip port sz h5 hip hip0 hiplt hport hsz
    simp only [parse_dcc_send]
    rw [if_neg (by omega)]
    simp only [hip]
    rw [if_neg (by simp; omega)]
    simp only [hport]
    rcases hsz with ⟨hlen, rfl⟩ | ⟨hlen, hszeq, ⟨s, rfl⟩, hok⟩
    · rw [if_neg (by omega)]
    · rw [if_pos hlen]
      simp only [hszeq]
      rw [if_pos hok]

/-- C3, witnessed: a short payload fails, and a full concrete offer with ip
`3232235521` decodes to host `192.168.0.1`. -/
theorem c3_witness :
    parse_dcc_send none "DCC SEND f 0" = .error (.invalidPayload "DCC SEND f 0") ∧
    parse_dcc_send none "DCC SEND \"book.epub\" 3232235521 6667 1234" =
      .ok ("book.epub", "192.168.0.1", 6667, some 1234) := by
  constructor
  · exact c3_parse_dcc_send_contract.1 none "DCC SEND f 0" (by decide)
  · exact c3_parse_dcc_send_contract.2.1 none
      "DCC SEND \"book.epub\" 3232235521 6667 1234" 3232235521 6667 (some 1234)
      (by decide) (by decide) (by decide) (by decide) (by decide)
      (Or.inr ⟨by decide, by decide, ⟨1234, rfl⟩, by decide⟩)

/-- Helper: a successful parse always satisfies the size-ceiling check. -/
theorem parse_dcc_send_ok_sizeOk (ms : Option Int) (payload : String)
    (r : String × String × Int × Option Int)
    (h : parse_dcc_send ms payload = .ok r) : dccSizeOk ms r.2.2.2 = true := by
  simp only [parse_dcc_send] at h
  split at h
  · simp at h
  · split at h
    · simp at h
    · split at h
      · simp at h
      · split at h
        · simp at h
        · split at h
          · split at h
            · simp at h
            · split at h
              · obtain rfl := (Except.ok.inj h).symm
                assumption
              · simp at h
          · obtain rfl := (Except.ok.inj h).symm
            cases ms <;> rfl

/-- Helper: any `openSocket` action of the download handler comes from an
offer that parsed successfully to that endpoint. -/
theorem on_ctcp_download_socket (ab : List String) (ms : Option Int)
    (fetch : String → Int → Except SockErr String) (st : DlState) (e : IrcEvent)
    (h p : _) (hmem : NetAction.openSocket h p ∈ (on_ctcp_download ab ms fetch st e).2) :
    ∃ pl, ctcpPayload e.arguments = some pl ∧
      ∃ fn sz, parse_dcc_send ms pl = .ok (fn, h, p, sz) := by
  unfold on_ctcp_download at hmem
  split at hmem
  · simp at hmem
  · rename_i pl hpl
    by_cases hdcc : pyStartsWith (pyUpper pl) "DCC SEND" = true
    · rw [if_pos hdcc] at hmem
      by_cases hsd : senderDisallowed ab (senderOf e.source) = true
      · rw [if_pos hsd] at hmem
        simp at hmem
      · rw [if_neg hsd] at hmem
        split at hmem
        · simp at hmem
        · rename_i fn host port sz heq
          split at hmem <;>
          · simp only [List.mem_singleton] at hmem
            cases hmem
            exact ⟨pl, hpl, fn, sz, heq⟩
    · rw [if_neg hdcc] at hmem
      simp at hmem

/-- Helper: every `openSocket` action of the download pump comes from a
delivered event whose offer parsed successfully to that endpoint. -/
theorem download_loop_socket (ab : List String) (ms : Option Int)
    (fetch : String → Int → Except SockErr String) :
    ∀ (events : List IrcEvent) (st : DlState) (h : String) (p : Int),
      NetAction.openSocket h p ∈ (download_loop ab ms fetch events st).2 →
      ∃ e ∈ events, ∃ pl, ctcpPayload e.arguments = some pl ∧
        ∃ fn sz, parse_dcc_send ms pl = .ok (fn, h, p, sz) := by
  intro events
  induction events with
  | nil => intro st h p hmem; simp [download_loop] at hmem
  | cons e rest ih =>
    intro st h p hmem
    rcases hstep : on_ctcp_download ab ms fetch st e with ⟨st', acts⟩
    by_cases hdone : st.done = true
    · simp [download_loop, hdone] at hmem
    · rcases hloop : download_loop ab ms fetch rest st' with ⟨st'', acts'⟩
      have : (download_loop ab ms fetch (e :: rest) st).2 = acts ++ acts' := by
        simp [download_loop, hdone, hstep, hloop]
      rw [this] at hmem
      rcases List.mem_append.mp hmem with h1 | h2
      · have := on_ctcp_download_socket ab ms fetch st e h p (by rw [hstep]; exact h1)
        exact ⟨e, List.mem_cons_self e rest, this⟩
      · have := ih st' h p (by rw [hloop]; exact h2)
        rcases this with ⟨e', he', hrest⟩
        exact ⟨e', List.mem_cons_of_mem _ he', hrest⟩

/-- C5: an offer whose declared size exceeds a configured (positive) ceiling
fails inside `_parse_dcc_send` with the `PolicyError`
(`"File too large"`), concretely and in general: no successful parse under a
positive ceiling carries a size above the ceiling, and the download pump
opens a transfer socket (which is also what creates the destination file)
only for offers whose parse succeeded — so an over-ceiling offer opens no
socket and creates no file. -/
theorem c5_size_ceiling :
    parse_dcc_send (some 10) "DCC SEND file.pdf 3232235521 5000 999" =
      .error (.fileTooLarge 999) ∧
    (∀ (m : Int) (payload fn host : String) (port s : Int),
      0 < m →
      parse_dcc_send (some m) payload = .ok (fn, host, port, some s) →
      s ≤ m) ∧
    (∀ (ab : List String) (ms : Option Int)
        (fetch : String → Int → Except SockErr String)
        (events : List IrcEvent) (h : String) (p : Int),
      NetAction.openSocket h p ∈
        (download_sync ab ms fetch events).2 →
      ∃ e ∈ events, ∃ pl, ctcpPayload e.arguments = some pl ∧
        ∃ fn sz, parse_dcc_send ms pl = .ok (fn, h, p, sz)) := by
  refine ⟨rfl, ?_, ?_⟩
  · intro m payload fn host port s hm hok
    have := parse_dcc_send_ok_sizeOk (some m) payload _ hok
    simp only [dccSizeOk] at this
    by_cases hs : s = 0
    · omega
    · by_cases hm0 : m = 0
      · omega
      · simp [hm0, hs] at this
        omega
  · intro ab ms fetch events h p hmem
    have heq : (download_sync ab ms fetch events).2 =
        (download_loop ab ms fetch events ⟨false, none, false⟩).2 := by
      rcases hloop : download_loop ab ms fetch events ⟨false, none, false⟩ with ⟨st, acts⟩
      simp [download_sync, hloop]
    rw [heq] at hmem
    exact download_loop_socket ab ms fetch events ⟨false, none, false⟩ h p hmem

/-- C5, witnessed: the general parts applied at a concrete over-ceiling
offer and at a concrete empty event list. -/
theorem c5_witness :
    (1234 : Int) ≤ 2000000 ∧
    ¬ NetAction.openSocket "10.0.0.1" 1 ∈
        (download_sync [] none (fun _ _ => .error .timedOut) []).2 := by
  constructor
  · exact c5_size_ceiling.2.1 2000000 "DCC SEND f 0 6667 1234" "f" "0.0.0.0" 6667 1234
      (by norm_num) (by rfl)
  · intro hmem
    rcases c5_size_ceiling.2.2 [] none (fun _ _ => .error .timedOut) [] "10.0.0.1" 1 hmem
      with ⟨e, he, _⟩
    simp at he

/-- C4 counterexample: with the non-empty allow-list `["trusted"]`, a valid
transfer offer from the disallowed sender `evil` in one-shot *search* mode
does not fail with the `PolicyError` — `_search_sync.on_ctcp` line 231 just
`return`s, the offer is silently ignored (no socket is opened either), and
the search completes normally with its (here empty) result list. -/
theorem c4_counterexample :
    senderDisallowed ["trusted"] (senderOf (some "evil!u@h")) = true ∧
    isDccSendEvent ["DCC", "SEND results.zip 0 2000 10"] = true ∧
    search_sync ["trusted"] none (fun _ _ => .error .timedOut)
        [(.ctcp, ⟨some "evil!u@h", ["DCC", "SEND results.zip 0 2000 10"]⟩)] =
      ([], []) :=
  ⟨rfl, rfl, rfl⟩

/-- Helper: the download handler on an event that is either not a transfer
offer or from a disallowed sender opens nothing, starts nothing, and at most
records the disallowed-sender error. -/
theorem on_ctcp_download_disallowed (ab : List String) (ms : Option Int)
    (fetch : String → Int → Except SockErr String) (st : DlState) (e : IrcEvent)
    (hyp : isDccSendEvent e.arguments = true →
      senderDisallowed ab (senderOf e.source) = true) :
    (on_ctcp_download ab ms fetch st e).2 = [] ∧
    (on_ctcp_download ab ms fetch st e).1.downloadStarted = st.downloadStarted ∧
    ((on_ctcp_download ab ms fetch st e).1.downloadError = st.downloadError ∨
      ∃ s, senderDisallowed ab s = true ∧
        (on_ctcp_download ab ms fetch st e).1.downloadError =
          some ("Sender " ++ s ++ " not allowed")) := by
  unfold on_ctcp_download
  split
  · simp
  · rename_i pl hpl
    by_cases hdcc : pyStartsWith (pyUpper pl) "DCC SEND" = true
    · have hsd : senderDisallowed ab (senderOf e.source) = true :=
        hyp (by simp [isDccSendEvent, hpl, hdcc])
      rw [if_pos hdcc, if_pos hsd]
      exact ⟨rfl, rfl, Or.inr ⟨senderOf e.source, hsd, rfl⟩⟩
    · rw [if_neg hdcc]
      simp

/-- Helper: the download pump over offers that are all disallowed (or not
offers at all) opens no socket, never starts a download, and at most records
a disallowed-sender error. -/
theorem download_loop_disallowed (ab : List String) (ms : Option Int)
    (fetch : String → Int → Except SockErr String) :
    ∀ (events : List IrcEvent) (st : DlState),
      (∀ e ∈ events, isDccSendEvent e.arguments = true →
        senderDisallowed ab (senderOf e.source) = true) →
      (download_loop ab ms fetch events st).2 = [] ∧
      (download_loop ab ms fetch events st).1.downloadStarted = st.downloadStarted ∧
      ((download_loop ab ms fetch events st).1.downloadError = st.downloadError ∨
        ∃ s, senderDisallowed ab s = true ∧
          (download_loop ab ms fetch events st).1.downloadError =
            some ("Sender " ++ s ++ " not allowed")) := by
  intro events
  induction events with
  | nil => intro st _; exact ⟨rfl, rfl, Or.inl rfl⟩
  | cons e rest ih =>
    intro st hyp
    by_cases hdone : st.done = true
    · have hshort : download_loop ab ms fetch (e :: rest) st = (st, []) := by
        simp [download_loop, hdone]
      rw [hshort]
      simp
    · have hstep := on_ctcp_download_disallowed ab ms fetch st e
        (fun h => hyp e (List.mem_cons_self e rest) h)
      rcases hstepEq : on_ctcp_download ab ms fetch st e with ⟨st', acts⟩
      rw [hstepEq] at hstep
      simp only at hstep
      have hrest := ih st' (fun x hx h => hyp x (List.mem_cons_of_mem _ hx) h)
      rcases hloopEq : download_loop ab ms fetch rest st' with ⟨st'', acts'⟩
      rw [hloopEq] at hrest
      simp only at hrest
      have hunf : download_loop ab ms fetch (e :: rest) st = (st'', acts ++ acts') := by
        simp [download_loop, hdone, hstepEq, hloopEq]
      rw [hunf]
      refine ⟨by simp [hstep.1, hrest.1], by simp [hstep.2.1, hrest.2.1], ?_⟩
      rcases hrest.2.2 with h1 | ⟨s, hs, herr⟩
      · rcases hstep.2.2 with h2 | ⟨s, hs, herr⟩
        · exact Or.inl (by simp [h1, h2])
        · exact Or.inr ⟨s, hs, by simp [h1, herr]⟩
      · exact Or.inr ⟨s, hs, herr⟩

/-- Helper: the search handler ignores an event that is not an accepted
offer: disallowed senders (and non-offers) change nothing and open nothing. -/
theorem on_ctcp_search_noop (ab : List String) (ms : Option Int)
    (fetch : String → Int → Except SockErr String) (st : SearchState) (e : IrcEvent)
    (hyp : isDccSendEvent e.arguments = true →
      senderDisallowed ab (senderOf e.source) = true) :
    on_ctcp_search ab ms fetch st e = (st, []) := by
  unfold on_ctcp_search
  split
  · rfl
  · rename_i pl hpl
    by_cases hdcc : pyStartsWith (pyUpper pl) "DCC SEND" = true
    · have hsd : senderDisallowed ab (senderOf e.source) = true :=
        hyp (by simp [isDccSendEvent, hpl, hdcc])
      rw [if_pos hdcc, if_pos hsd]
    · rw [if_neg hdcc]

/-- Helper: when every delivered offer is disallowed, the search pump
behaves exactly as if only the plain reply lines had been delivered. -/
theorem search_loop_filter (ab : List String) (ms : Option Int)
    (fetch : String → Int → Except SockErr String) :
    ∀ (events : List (EventKind × IrcEvent)) (st : SearchState),
      (∀ p ∈ events, p.1 = EventKind.ctcp → isDccSendEvent p.2.arguments = true →
        senderDisallowed ab (senderOf p.2.source) = true) →
      search_loop ab ms fetch events st =
        search_loop ab ms fetch
          (events.filter (fun p => p.1 == EventKind.privmsg)) st := by
  intro events
  induction events with
  | nil => intro st _; rfl
  | cons p rest ih =>
    intro st hyp
    rcases p with ⟨k, e⟩
    cases k with
    | privmsg =>
      have hk : ((EventKind.privmsg, e).1 == EventKind.privmsg) = true := by rfl
      simp only [List.filter_cons, hk, if_true]
      simp only [search_loop]
      rw [ih _ (fun x hx => hyp x (List.mem_cons_of_mem _ hx))]
    | ctcp =>
      have hnoop := on_ctcp_search_noop ab ms fetch st e
        (hyp (EventKind.ctcp, e) (List.mem_cons_self _ rest) rfl)
      have hk : ((EventKind.ctcp, e).1 == EventKind.privmsg) = false := by rfl
      simp only [List.filter_cons, hk, if_false]
      simp only [search_loop, hnoop]
      rw [ih _ (fun x hx => hyp x (List.mem_cons_of_mem _ hx))]
      simp

/-- Helper: a pump fed only reply lines opens no sockets. -/
theorem search_loop_privmsg_acts (ab : List String) (ms : Option Int)
    (fetch : String → Int → Except SockErr String) :
    ∀ (events : List (EventKind × IrcEvent)) (st : SearchState),
      (∀ p ∈ events, p.1 = EventKind.privmsg) →
      (search_loop ab ms fetch events st).2 = [] := by
  intro events
  induction events with
  | nil => intro st _; rfl
  | cons p rest ih =>
    intro st hyp
    rcases p with ⟨k, e⟩
    have hk := hyp (k, e) (List.mem_cons_self _ rest)
    simp only at hk
    subst hk
    simp only [search_loop]
    exact ih _ (fun x hx => hyp x (List.mem_cons_of_mem _ hx))

/-- Helper: an event the download handler does not recognise as a transfer
offer leaves the state untouched and opens nothing. -/
theorem on_ctcp_download_not_dcc (ab : List String) (ms : Option Int)
    (fetch : String → Int → Except SockErr String) (st : DlState) (e : IrcEvent)
    (h : isDccSendEvent e.arguments = false) :
    on_ctcp_download ab ms fetch st e = (st, []) := by
  unfold on_ctcp_download
  cases hpl : ctcpPayload e.arguments with
  | none => rfl
  | some pl =>
    simp only [isDccSendEvent, hpl] at h
    simp [h]

/-- Helper: a transfer offer from a disallowed sender makes the download
handler record exactly the `"Sender … not allowed"` error, set the done
flag, and open nothing. -/
theorem on_ctcp_download_rejects (ab : List String) (ms : Option Int)
    (fetch : String → Int → Except SockErr String) (st : DlState) (e : IrcEvent)
    (hdcc : isDccSendEvent e.arguments = true)
    (hsd : senderDisallowed ab (senderOf e.source) = true) :
    on_ctcp_download ab ms fetch st e =
      ({ st with
          downloadError := some ("Sender " ++ senderOf e.source ++ " not allowed")
          done := true }, []) := by
  unfold on_ctcp_download
  cases hpl : ctcpPayload e.arguments with
  | none => simp [isDccSendEvent, hpl] at hdcc
  | some pl =>
    simp only [isDccSendEvent, hpl] at hdcc
    simp [hdcc, hsd]

/-- Helper: once the done flag is set, the pump processes nothing more. -/
theorem download_loop_done (ab : List String) (ms : Option Int)
    (fetch : String → Int → Except SockErr String)
    (events : List IrcEvent) (st : DlState) (h : st.done = true) :
    download_loop ab ms fetch events st = (st, []) := by
  cases events with
  | nil => rfl
  | cons e rest => simp [download_loop, h]

/-- Helper: over a window whose offers are all disallowed, the download pump
opens no socket, starts nothing, and, starting from a fresh request state,
ends with no error if no offer arrived at all — and otherwise with exactly
the `"Sender … not allowed"` error of an offending offer event. -/
theorem download_loop_rejects_first (ab : List String) (ms : Option Int)
    (fetch : String → Int → Except SockErr String) :
    ∀ (events : List IrcEvent) (st : DlState),
      (∀ e ∈ events, isDccSendEvent e.arguments = true →
        senderDisallowed ab (senderOf e.source) = true) →
      st.done = false → st.downloadError = none →
      (download_loop ab ms fetch events st).2 = [] ∧
      (download_loop ab ms fetch events st).1.downloadStarted =
        st.downloadStarted ∧
      ((∀ e ∈ events, isDccSendEvent e.arguments = false) ∧
          (download_loop ab ms fetch events st).1.downloadError = none ∨
        ∃ e ∈ events, isDccSendEvent e.arguments = true ∧
          (download_loop ab ms fetch events st).1.downloadError =
            some ("Sender " ++ senderOf e.source ++ " not allowed")) := by
  intro events
  induction events with
  | nil =>
    intro st _ _ herr
    exact ⟨rfl, rfl, Or.inl ⟨by simp, herr⟩⟩
  | cons e rest ih =>
    intro st hyp hdone herr
    by_cases hdcc : isDccSendEvent e.arguments = true
    · have hsd := hyp e (List.mem_cons_self e rest) hdcc
      have hstep := on_ctcp_download_rejects ab ms fetch st e hdcc hsd
      have hunf : download_loop ab ms fetch (e :: rest) st =
          ({ st with
              downloadError := some ("Sender " ++ senderOf e.source ++ " not allowed")
              done := true }, []) := by
        simp only [download_loop, hdone, Bool.false_eq_true, if_false, hstep]
        rw [download_loop_done ab ms fetch rest _ rfl]
        simp
      rw [hunf]
      exact ⟨rfl, rfl,
        Or.inr ⟨e, List.mem_cons_self e rest, hdcc, rfl⟩⟩
    · have hdccF : isDccSendEvent e.arguments = false := by
        revert hdcc; cases isDccSendEvent e.arguments <;> simp
      have hstep := on_ctcp_download_not_dcc ab ms fetch st e hdccF
      have hrest := ih st (fun x hx h => hyp x (List.mem_cons_of_mem _ hx) h)
        hdone herr
      rcases hloopEq : download_loop ab ms fetch rest st with ⟨st', acts'⟩
      rw [hloopEq] at hrest
      simp only at hrest
      have hunf : download_loop ab ms fetch (e :: rest) st = (st', acts') := by
        simp only [download_loop, hdone, Bool.false_eq_true, if_false, hstep,
          hloopEq]
        simp
      rw [hunf]
      refine ⟨by simp [hrest.1], hrest.2.1, ?_⟩
      rcases hrest.2.2 with ⟨hall, herr'⟩ | ⟨e', he', hdcc', herr'⟩
      · refine Or.inl ⟨?_, herr'⟩
        intro x hx
        rcases List.mem_cons.mp hx with h1 | h2
        · subst h1; exact hdccF
        · exact hall x h2
      · exact Or.inr ⟨e', List.mem_cons_of_mem _ he', hdcc', herr'⟩

/-- C4 as amended: with a non-empty allow-list, an offer from a sender not
in it (case-insensitively) is always rejected before any socket to the
offered endpoint is opened, in both modes — but only download mode fails
with the `PolicyError`: when at least one offer arrives the download fails
with exactly `"Sender … not allowed"` for the offending sender, and only
when no offer arrived at all does it fail with `"No DCC SEND received"`
instead; one-shot search mode silently ignores the offer and completes
normally, exactly as if only the plain reply lines had been delivered. -/
theorem c4_amended :
    (∀ (ab : List String) (ms : Option Int)
        (fetch : String → Int → Except SockErr String) (events : List IrcEvent),
      ab ≠ [] →
      (∀ e ∈ events, isDccSendEvent e.arguments = true →
        senderDisallowed ab (senderOf e.source) = true) →
      (download_sync ab ms fetch events).2 = [] ∧
      ((∀ e ∈ events, isDccSendEvent e.arguments = false) ∧
          (download_sync ab ms fetch events).1 = .error "No DCC SEND received" ∨
        ∃ e ∈ events, isDccSendEvent e.arguments = true ∧
          senderDisallowed ab (senderOf e.source) = true ∧
          (download_sync ab ms fetch events).1 =
            .error ("Sender " ++ senderOf e.source ++ " not allowed"))) ∧
    (∀ (ab : List String) (ms : Option Int)
        (fetch : String → Int → Except SockErr String)
        (events : List (EventKind × IrcEvent)),
      (∀ p ∈ events, p.1 = EventKind.ctcp → isDccSendEvent p.2.arguments = true →
        senderDisallowed ab (senderOf p.2.source) = true) →
      search_sync ab ms fetch events =
        search_sync ab ms fetch (events.filter (fun p => p.1 == EventKind.privmsg)) ∧
      (search_sync ab ms fetch events).2 = []) := by
  constructor
  · intro ab ms fetch events _ hyp
    have hloop := download_loop_rejects_first ab ms fetch events
      ⟨false, none, false⟩ hyp rfl rfl
    rcases hloopEq : download_loop ab ms fetch events ⟨false, none, false⟩
      with ⟨st, acts⟩
    rw [hloopEq] at hloop
    simp only at hloop
    have hsync : download_sync ab ms fetch events =
        (match st.downloadError with
         | some err => .error err
         | none => if !st.downloadStarted then .error "No DCC SEND received"
                   else .ok (), acts) := by
      simp [download_sync, hloopEq]
    rw [hsync]
    refine ⟨hloop.1, ?_⟩
    rcases hloop.2.2 with ⟨hall, herr⟩ | ⟨e, he, hdcc, herr⟩
    · refine Or.inl ⟨hall, ?_⟩
      rw [herr]
      simp [hloop.2.1]
    · refine Or.inr ⟨e, he, hdcc, hyp e he hdcc, ?_⟩
      rw [herr]
  · intro ab ms fetch events hyp
    have hfil := search_loop_filter ab ms fetch events ⟨[], []⟩ hyp
    constructor
    · simp [search_sync, hfil]
    · have hacts : (search_loop ab ms fetch
          (events.filter (fun p => p.1 == EventKind.privmsg)) ⟨[], []⟩).2 = [] := by
        apply search_loop_privmsg_acts
        intro p hp
        have := (List.mem_filter.mp hp).2
        cases p with
        | mk k e =>
          cases k
          · rfl
          · simp at this
      rcases hloopEq : search_loop ab ms fetch events ⟨[], []⟩ with ⟨st, acts⟩
      rw [hloopEq] at hfil
      simp [search_sync, hloopEq]
      rw [← hfil] at hacts
      simpa using hacts

/-- C4 amended, witnessed at a concrete disallowed offer in each mode: the
download fails with exactly the `"Sender evil not allowed"` PolicyError and
opens no socket; the search opens no socket (and, per `c4_counterexample`,
completes normally). -/
theorem c4_amended_witness :
    (download_sync ["trusted"] none (fun _ _ => .error .timedOut)
        [⟨some "evil!u@h", ["DCC", "SEND results.zip 0 2000 10"]⟩]).1 =
      .error "Sender evil not allowed" ∧
    (download_sync ["trusted"] none (fun _ _ => .error .timedOut)
        [⟨some "evil!u@h", ["DCC", "SEND results.zip 0 2000 10"]⟩]).2 = [] ∧
    (search_sync ["trusted"] none (fun _ _ => .error .timedOut)
        [(.ctcp, ⟨some "evil!u@h", ["DCC", "SEND results.zip 0 2000 10"]⟩)]).2 = [] := by
  have h := c4_amended.1 ["trusted"] none (fun _ _ => .error .timedOut)
    [⟨some "evil!u@h", ["DCC", "SEND results.zip 0 2000 10"]⟩]
    (by simp) (by intro e he _; simp at he; subst he; rfl)
  refine ⟨?_, h.1,
    (c4_amended.2 ["trusted"] none (fun _ _ => .error .timedOut)
      [(.ctcp, ⟨some "evil!u@h", ["DCC", "SEND results.zip 0 2000 10"]⟩)]
      (by intro p hp _ _; simp at hp; subst hp; rfl)).2⟩
  rcases h.2 with ⟨hall, _⟩ | ⟨e, he, _, _, herr⟩
  · exfalso
    have hfalse := hall ⟨some "evil!u@h", ["DCC", "SEND results.zip 0 2000 10"]⟩
      (by simp)
    have htrue : isDccSendEvent
        (IrcEvent.mk (some "evil!u@h") ["DCC", "SEND results.zip 0 2000 10"]).arguments =
        true := rfl
    rw [htrue] at hfalse
    simp at hfalse
  · simp only [List.mem_singleton] at he
    subst he
    rw [herr]
    rfl

/-- Specification-side companion: why the loop will stop on a given chunk
stream and declared size. -/
def stopSpec : List Nat → Option Int → StopReason
  | [], _ => .eof
  | c :: rest, some r =>
    if r - (c : Int) ≤ 0 then .declaredSize else stopSpec rest (some (r - (c : Int)))
  | _ :: rest, none => stopSpec rest none

/-- Helper: the receive loop writes exactly the consumed prefix, attempts
after every consumed chunk the 4-byte big-endian encoding of the cumulative
total, and stops for the reason `stopSpec` predicts — all independently of
which acknowledgement sends fail. -/
theorem recv_loop_spec (f : Nat → Bool) :
    ∀ (chunks : List Nat) (r? : Option Int) (idx total : Nat),
      (recv_loop f chunks r? idx total).total =
        total + (consumedChunks chunks r?).sum ∧
      (recv_loop f chunks r? idx total).acks.map Prod.fst =
        (prefixTotals (consumedChunks chunks r?) total).map u32be ∧
      (recv_loop f chunks r? idx total).stop = stopSpec chunks r? := by
  intro chunks
  induction chunks with
  | nil =>
    intro r? idx total
    cases r? <;> simp [recv_loop, consumedChunks, prefixTotals, stopSpec]
  | cons c rest ih =>
    intro r? idx total
    cases r? with
    | none =>
      have := ih none (idx + 1) (total + c)
      simp only [recv_loop, consumedChunks, prefixTotals, stopSpec, List.sum_cons,
        List.map_cons]
      refine ⟨by rw [this.1]; omega, ?_, this.2.2⟩
      simp [this.2.1]
    | some r =>
      by_cases hr : r - (c : Int) ≤ 0
      · simp [recv_loop, consumedChunks, stopSpec, hr, prefixTotals]
      · have := ih (some (r - (c : Int))) (idx + 1) (total + c)
        simp only [recv_loop, consumedChunks, stopSpec, if_neg hr, List.sum_cons,
          prefixTotals, List.map_cons]
        refine ⟨by rw [this.1]; omega, ?_, this.2.2⟩
        simp [this.2.1]

/-- Helper: with no declared size the loop always stops on EOF. -/
theorem stopSpec_none : ∀ chunks : List Nat, stopSpec chunks none = .eof := by
  intro chunks
  induction chunks with
  | nil => rfl
  | cons c rest ih => simpa [stopSpec] using ih

/-- C8: after each chunk the loop writes, it attempts to send back exactly
the 4-byte unsigned big-endian encoding of the cumulative bytes received so
far (the encodings listed by `prefixTotals`, bytes spelled out in the
concrete conjunct); the bytes written, the attempted acknowledgements and
the stop reason do not depend on which acknowledgement sends fail (a failed
send is caught and logged, never aborting the transfer); and the loop stops
on EOF when no size was declared, or by the declared-size threshold exactly
when `stopSpec` predicts the remaining count reaches zero. -/
theorem c8_ack_protocol :
    (∀ (chunks : List Nat) (size? : Option Int) (f : Nat → Bool),
      (receive_dcc chunks size? f).total = (consumedChunks chunks size?).sum ∧
      (receive_dcc chunks size? f).acks.map Prod.fst =
        (prefixTotals (consumedChunks chunks size?) 0).map u32be ∧
      (receive_dcc chunks size? f).stop = stopSpec chunks size?) ∧
    (∀ (chunks : List Nat) (size? : Option Int) (f g : Nat → Bool),
      (receive_dcc chunks size? f).total = (receive_dcc chunks size? g).total ∧
      (receive_dcc chunks size? f).acks.map Prod.fst =
        (receive_dcc chunks size? g).acks.map Prod.fst ∧
      (receive_dcc chunks size? f).stop = (receive_dcc chunks size? g).stop) ∧
    (∀ (chunks : List Nat) (f : Nat → Bool),
      (receive_dcc chunks none f).stop = .eof) ∧
    receive_dcc [4096, 4096] none (fun _ => false) =
      ⟨8192, [(some [0, 0, 16, 0], true), (some [0, 0, 32, 0], true)], .eof⟩ := by
  refine ⟨?_, ?_, ?_, by rfl⟩
  · intro chunks size? f
    have h := recv_loop_spec f chunks size? 0 0
    exact ⟨by simpa [receive_dcc] using h.1, by simpa [receive_dcc] using h.2.1,
      by simpa [receive_dcc] using h.2.2⟩
  · intro chunks size? f g
    have hf := recv_loop_spec f chunks size? 0 0
    have hg := recv_loop_spec g chunks size? 0 0
    exact ⟨by simp [receive_dcc, hf.1, hg.1],
      by simp [receive_dcc, hf.2.1, hg.2.1],
      by simp [receive_dcc, hf.2.2, hg.2.2]⟩
  · intro chunks f
    have h := recv_loop_spec f chunks none 0 0
    simpa [receive_dcc, stopSpec_none] using h.2.2

/-- Helper: bounds for the declared-size stop, over the running loop. -/
theorem recv_loop_bound (f : Nat → Bool) :
    ∀ (chunks : List Nat) (r : Int) (idx total : Nat),
      (∀ c ∈ chunks, 1 ≤ c ∧ c ≤ 4096) → 0 < r → r ≤ (chunks.sum : Int) →
      ((total : Int) + r ≤ ((recv_loop f chunks (some r) idx total).total : Int) ∧
       ((recv_loop f chunks (some r) idx total).total : Int) ≤ (total : Int) + r + 4095 ∧
       (recv_loop f chunks (some r) idx total).stop = .declaredSize) := by
  intro chunks
  induction chunks with
  | nil =>
    intro r idx total _ hr hsum
    simp at hsum
    omega
  | cons c rest ih =>
    intro r idx total hbnd hr hsum
    have hc := hbnd c (List.mem_cons_self c rest)
    by_cases hstop : r - (c : Int) ≤ 0
    · refine ⟨?_, ?_, by simp [recv_loop, hstop]⟩ <;>
      · simp only [recv_loop, hstop, if_true]
        push_cast
        omega
    · have hrest : ∀ x ∈ rest, 1 ≤ x ∧ x ≤ 4096 :=
        fun x hx => hbnd x (List.mem_cons_of_mem _ hx)
      have hsum' : r - (c : Int) ≤ (rest.sum : Int) := by
        simp only [List.sum_cons] at hsum
        push_cast at hsum ⊢
        omega
      have := ih (r - (c : Int)) (idx + 1) (total + c) hrest (by omega) hsum'
      refine ⟨?_, ?_, by simp [recv_loop, hstop, this.2.2]⟩ <;>
      · simp only [recv_loop, hstop, if_false]
        push_cast at this ⊢
        omega

/-- C10: with a declared size `s > 0` and a stream of 1-to-4096-byte chunks
totalling at least `s`, the loop stops by the declared-size threshold only
after the chunk that makes the cumulative count reach or exceed `s`; the
bytes written land between `s` and `s + 4095` inclusive, and the upper bound
is attained (declared size 1, one 4096-byte chunk), so the declared size is
a termination threshold, not an exact cap. -/
theorem c10_size_threshold :
    (∀ (chunks : List Nat) (s : Int) (f : Nat → Bool),
      (∀ c ∈ chunks, 1 ≤ c ∧ c ≤ 4096) → 0 < s → s ≤ (chunks.sum : Int) →
      (s ≤ ((receive_dcc chunks (some s) f).total : Int) ∧
       ((receive_dcc chunks (some s) f).total : Int) ≤ s + 4095 ∧
       (receive_dcc chunks (some s) f).stop = .declaredSize)) ∧
    receive_dcc [4096] (some 1) (fun _ => false) =
      ⟨4096, [(some [0, 0, 16, 0], true)], .declaredSize⟩ := by
  refine ⟨?_, by rfl⟩
  intro chunks s f hbnd hs hsum
  have := recv_loop_bound f chunks s 0 0 hbnd hs hsum
  simp only [receive_dcc] at *
  push_cast at this ⊢
  exact ⟨by omega, by omega, this.2.2⟩

/-- C10, witnessed at the boundary case that attains the `s + 4095` bound. -/
theorem c10_witness :
    (1 : Int) ≤ ((receive_dcc [4096] (some 1) (fun _ => false)).total : Int) ∧
    ((receive_dcc [4096] (some 1) (fun _ => false)).total : Int) = 1 + 4095 := by
  have h := c10_size_threshold.1 [4096] 1 (fun _ => false)
    (by intro c hc; simp at hc; omega) (by norm_num) (by simp)
  exact ⟨h.1, by rfl⟩

/-- Helper: appending to a non-empty string stays non-empty. -/
theorem str_append_ne (a b : String) (ha : a ≠ "") : a ++ b ≠ "" := by
  intro h
  apply ha
  have hd : a.data ++ b.data = ([] : List Char) := congrArg String.data h
  have hnil : a.data = [] := (List.append_eq_nil.mp hd).1
  cases a
  exact congrArg String.mk hnil

/-- Helper: every error message a session request can record is non-empty
(the handler-recorded diagnostics all start with a literal prefix, and the
session-timeout message is a literal). -/
theorem dccErrMsg_ne (e : DccError) : dccErrMsg e ≠ "" := by
  cases e with
  | invalidPayload p => exact str_append_ne _ _ (by decide)
  | fileTooLarge s => exact str_append_ne _ _ (str_append_ne _ _ (by decide))
  | valueError => decide
  | addressValueError => decide

/-- Helper: socket failure diagnostics are non-empty. -/
theorem sockErrMsg_ne (e : SockErr) : sockErrMsg e ≠ "" := by
  cases e <;> decide

/-- Helper: the reply-line handler never touches the error or the signal. -/
theorem on_privmsg_session_err (st : ReqState) (src : Option String) (line : String) :
    (on_privmsg_session st src line).error = st.error ∧
    (on_privmsg_session st src line).done = st.done := by
  unfold on_privmsg_session
  cases hp : parse_search_line line <;> simp [hp]

/-- Helper: the per-request invariant — the completion signal is only ever
set together with a non-empty recorded error, and errors, once recorded, are
non-empty — is preserved by every inbound event the wired handlers see. -/
theorem session_events_inv (ab : List String) (ms : Option Int)
    (fetch : String → Int → Except SockErr String) :
    ∀ (events : List (EventKind × IrcEvent)) (st : ReqState),
      ((st.done = true → ∃ m, st.error = some m ∧ m ≠ "") ∧
        (∀ m, st.error = some m → m ≠ "")) →
      ((session_events ab ms fetch events st).done = true →
        ∃ m, (session_events ab ms fetch events st).error = some m ∧ m ≠ "") ∧
      (∀ m, (session_events ab ms fetch events st).error = some m → m ≠ "") := by
  intro events
  induction events with
  | nil => intro st h; exact h
  | cons p rest ih =>
    intro st h
    rcases p with ⟨k, e⟩
    cases k with
    | privmsg =>
      refine ih (on_privmsg_session st e.source (e.arguments.headD "")) ?_
      have hpm := on_privmsg_session_err st e.source (e.arguments.headD "")
      constructor
      · intro hd
        rw [hpm.2] at hd
        rw [hpm.1]
        exact h.1 hd
      · intro m hm
        rw [hpm.1] at hm
        exact h.2 m hm
    | ctcp =>
      refine ih (on_ctcp_session ab ms fetch st e) ?_
      unfold on_ctcp_session
      split
      · exact h
      · rename_i pl hpl
        by_cases hdcc : pyStartsWith (pyUpper pl) "DCC SEND" = true
        · rw [if_pos hdcc]
          by_cases hsd : senderDisallowed ab (senderOf e.source) = true
          · rw [if_pos hsd]
            constructor
            · intro _
              exact ⟨_, rfl, str_append_ne _ _ (str_append_ne _ _ (by decide))⟩
            · intro m hm
              cases hm
              exact str_append_ne _ _ (str_append_ne _ _ (by decide))
          · rw [if_neg hsd]
            split
            · constructor
              · intro _; exact ⟨_, rfl, dccErrMsg_ne _⟩
              · intro m hm; cases hm; exact dccErrMsg_ne _
            · split
              · constructor
                · intro _; exact ⟨_, rfl, sockErrMsg_ne _⟩
                · intro m hm; cases hm; exact sockErrMsg_ne _
              · exact h
        · rw [if_neg hdcc]
          exact h

/-- C9: for every delivered event window, the request's completion signal
ends the window set only together with a non-empty (hence non-null, truthy)
recorded error — disallowed sender, transfer/parse failure, or the
session-side search timeout — and if the handlers themselves set the signal
at any point, an error was recorded with it; consequently `IrcSession.search`
always raises (the recorded error, or its own wait timeout) and never
returns a collected result list. -/
theorem c9_search_never_returns :
    (∀ (ab : List String) (ms : Option Int)
        (fetch : String → Int → Except SockErr String)
        (events : List (EventKind × IrcEvent)),
      (session_run ab ms fetch events).done = true ∧
      ∃ m, (session_run ab ms fetch events).error = some m ∧ m ≠ "") ∧
    (∀ (ab : List String) (ms : Option Int)
        (fetch : String → Int → Except SockErr String)
        (events : List (EventKind × IrcEvent)) (waitTimedOut : Bool),
      ∃ m, session_search (session_run ab ms fetch events) waitTimedOut =
        .error m) ∧
    (∀ (ab : List String) (ms : Option Int)
        (fetch : String → Int → Except SockErr String)
        (events : List (EventKind × IrcEvent)),
      (session_events ab ms fetch events ⟨none, false, [], []⟩).done = true →
      ∃ m, (session_events ab ms fetch events ⟨none, false, [], []⟩).error =
          some m ∧ m ≠ "") := by
  have base : ∀ (ab : List String) (ms : Option Int)
      (fetch : String → Int → Except SockErr String)
      (events : List (EventKind × IrcEvent)),
      ((session_events ab ms fetch events ⟨none, false, [], []⟩).done = true →
        ∃ m, (session_events ab ms fetch events ⟨none, false, [], []⟩).error =
          some m ∧ m ≠ "") ∧
      (∀ m, (session_events ab ms fetch events ⟨none, false, [], []⟩).error =
        some m → m ≠ "") := by
    intro ab ms fetch events
    exact session_events_inv ab ms fetch events ⟨none, false, [], []⟩
      ⟨by intro h; simp at h, by intro m hm; simp at hm⟩
  have hrun : ∀ (ab : List String) (ms : Option Int)
      (fetch : String → Int → Except SockErr String)
      (events : List (EventKind × IrcEvent)),
      (session_run ab ms fetch events).done = true ∧
      ∃ m, (session_run ab ms fetch events).error = some m ∧ m ≠ "" := by
    intro ab ms fetch events
    unfold session_run
    by_cases hdone :
        (session_events ab ms fetch events ⟨none, false, [], []⟩).done = true
    · rw [if_pos hdone]
      exact ⟨hdone, (base ab ms fetch events).1 hdone⟩
    · rw [if_neg hdone]
      exact ⟨rfl, "Search timeout", rfl, by decide⟩
  refine ⟨hrun, ?_, fun ab ms fetch events => (base ab ms fetch events).1⟩
  intro ab ms fetch events waitTimedOut
  cases waitTimedOut with
  | true => exact ⟨"Search timed out", rfl⟩
  | false =>
    rcases (hrun ab ms fetch events).2 with ⟨m, hm, hne⟩
    refine ⟨m, ?_⟩
    simp [session_search, hm, hne]

/-- C9, witnessed: a concrete window in which a disallowed sender's offer
completes the request, with the recorded non-empty error. -/
theorem c9_witness :
    ∃ m, (session_events ["trusted"] none (fun _ _ => .error .timedOut)
        [(.ctcp, ⟨some "evil!u@h", ["DCC", "SEND results.zip 0 2000 10"]⟩)]
        ⟨none, false, [], []⟩).error = some m ∧ m ≠ "" :=
  c9_search_never_returns.2.2 ["trusted"] none (fun _ _ => .error .timedOut)
    [(.ctcp, ⟨some "evil!u@h", ["DCC", "SEND results.zip 0 2000 10"]⟩)]
    (by rfl)
